import Mathlib

/-!
Shallow embedding of the `simplegrep` regex engine
(src/simplegrep/src/{tokens,ast,parser,automaton}.rs).

Strings are modelled as `List Char`; the lexer's byte cursor is modelled by
passing the remaining character list.  Rust `Vec` is `List`, `usize` is `Nat`,
`Result<T, String>` is `Except String T`.
-/

namespace Simplegrep

/-- Token type from tokens.rs. -/
inductive Token where
  | Char : Char → Token
  | Escape : Char → Token
  | Concat : Token
  | Alternation : Token
  | Star : Token
  | Plus : Token
  | Question : Token
  | Range : Token
  | OpenParen : Token
  | CloseParen : Token
  | OpenBracket : Token
  | CloseBracket : Token
  | AnyChar : Token
  | Digit : Token
  | WordChar : Token
  | Whitespace : Token
  | StartLine : Token
  | EndLine : Token
  | StartInput : Token
  | EndInput : Token
  | WordBoundary : Token
  | EOF : Token
deriving DecidableEq, Repr

namespace Lexer

/-- `Lexer::handle_escape`: the cursor is already past the backslash; the
argument is the remaining input. -/
def handle_escape : List Char → Token × List Char
  | [] => (Token.Char '\\', [])
  | c :: rest =>
    (if c = 'd' then Token.Digit
     else if c = 'w' then Token.WordChar
     else if c = 's' then Token.Whitespace
     else if c = 'A' then Token.StartInput
     else if c = 'z' then Token.EndInput
     else if c = 'b' then Token.WordBoundary
     else Token.Escape c, rest)

/-- `Lexer::next_token`, returning the token and the remaining input. -/
def next_token : List Char → Token × List Char
  | [] => (Token.EOF, [])
  | c :: rest =>
    if c = ' ' ∨ c = '\t' ∨ c = '\n' ∨ c = '\r' then next_token rest
    else if c = '(' then (Token.OpenParen, rest)
    else if c = ')' then (Token.CloseParen, rest)
    else if c = '[' then (Token.OpenBracket, rest)
    else if c = ']' then (Token.CloseBracket, rest)
    else if c = '*' then (Token.Star, rest)
    else if c = '+' then (Token.Plus, rest)
    else if c = '?' then (Token.Question, rest)
    else if c = '|' then (Token.Alternation, rest)
    else if c = '.' then (Token.AnyChar, rest)
    else if c = '^' then (Token.StartLine, rest)
    else if c = '$' then (Token.EndLine, rest)
    else if c = '\\' then handle_escape rest
    else if c = '\x7b' then (Token.Range, rest)
    else (Token.Char c, rest)

end Lexer

/-- Rendering of a token for error messages (mirrors the derived `Debug`
formatting used by the Rust error strings). -/
def token_str : Token → String
  | Token.Char c => "Char(" ++ String.singleton c ++ ")"
  | Token.Escape c => "Escape(" ++ String.singleton c ++ ")"
  | Token.Concat => "Concat"
  | Token.Alternation => "Alternation"
  | Token.Star => "Star"
  | Token.Plus => "Plus"
  | Token.Question => "Question"
  | Token.Range => "Range"
  | Token.OpenParen => "OpenParen"
  | Token.CloseParen => "CloseParen"
  | Token.OpenBracket => "OpenBracket"
  | Token.CloseBracket => "CloseBracket"
  | Token.AnyChar => "AnyChar"
  | Token.Digit => "Digit"
  | Token.WordChar => "WordChar"
  | Token.Whitespace => "Whitespace"
  | Token.StartLine => "StartLine"
  | Token.EndLine => "EndLine"
  | Token.StartInput => "StartInput"
  | Token.EndInput => "EndInput"
  | Token.WordBoundary => "WordBoundary"
  | Token.EOF => "EOF"

/-- `RepeatRange` from ast.rs. -/
structure RepeatRange where
  min : Nat
  max : Option Nat
deriving DecidableEq, Repr

/-- `RegexNode` from ast.rs. -/
inductive RegexNode where
  | Char : Char → RegexNode
  | AnyChar : RegexNode
  | Digit : RegexNode
  | WordChar : RegexNode
  | Whitespace : RegexNode
  | Concat : List RegexNode → RegexNode
  | Alternation : List RegexNode → RegexNode
  | Repeat : RegexNode → RepeatRange → RegexNode
  | Plus : RegexNode → RegexNode
  | Star : RegexNode → RegexNode
  | Question : RegexNode → RegexNode
  | Group : RegexNode → RegexNode
  | StartLine : RegexNode
  | EndLine : RegexNode
  | StartInput : RegexNode
  | EndInput : RegexNode
  | WordBoundary : RegexNode
deriving Repr

/-- `NFAState` from automaton.rs. -/
inductive NFAState where
  | Start : NFAState
  | Match : NFAState
  | Transition : Char → Nat → NFAState
  | EpsilonTransition : Nat → NFAState
deriving DecidableEq, Repr

/-- `NFA` from automaton.rs. -/
structure NFA where
  states : List NFAState
  start : Nat
  accept : Nat
deriving DecidableEq, Repr

/-- `NFA::new`. -/
def NFA.new : NFA := ⟨[NFAState.Start], 0, 0⟩

mutual

/-- `NFA::build_from_node`: takes the node, the entry state index and the
current states vector, returns the exit state index and the updated states
vector (the Rust method mutates `self.states` in place). -/
def NFA.build_from_node : RegexNode → Nat → List NFAState → Nat × List NFAState
  | RegexNode.Char ch, current_state, states =>
    let new_state := states.length
    (new_state,
     (states.set current_state (NFAState.Transition ch new_state)) ++ [NFAState.Match])
  | RegexNode.AnyChar, current_state, states =>
    let new_state := states.length
    (new_state,
     (states.set current_state (NFAState.Transition '\x00' new_state)) ++ [NFAState.Match])
  | RegexNode.Concat nodes, current_state, states =>
    NFA.build_list nodes current_state states
  | RegexNode.Alternation nodes, _, states =>
    let start_state := states.length
    NFA.build_branches nodes start_state none (states ++ [NFAState.Start])
  | RegexNode.Star node, _, states =>
    let start_state := states.length
    let r := NFA.build_from_node node start_state (states ++ [NFAState.Start])
    (start_state, r.2.set r.1 (NFAState.EpsilonTransition start_state))
  | RegexNode.Plus node, _, states =>
    let start_state := states.length
    let r := NFA.build_from_node node start_state (states ++ [NFAState.Start])
    (start_state, r.2.set r.1 (NFAState.EpsilonTransition start_state))
  | RegexNode.Question node, _, states =>
    let start_state := states.length
    let r := NFA.build_from_node node start_state (states ++ [NFAState.Start])
    (start_state, r.2.set r.1 NFAState.Match)
  | RegexNode.Repeat node range, current_state, states =>
    let r := NFA.build_times node range.min current_state states
    match range.max with
    | some mx => NFA.build_times node (mx - range.min) r.1 r.2
    | none => r
  | RegexNode.Group node, current_state, states =>
    NFA.build_from_node node current_state states
  | RegexNode.Digit, current_state, states =>
    let new_state := states.length
    (new_state,
     (states.set current_state (NFAState.Transition '\x00' new_state)) ++ [NFAState.Match])
  | RegexNode.WordChar, current_state, states =>
    let new_state := states.length
    (new_state,
     (states.set current_state (NFAState.Transition '\x00' new_state)) ++ [NFAState.Match])
  | RegexNode.Whitespace, current_state, states =>
    let new_state := states.length
    (new_state,
     (states.set current_state (NFAState.Transition '\x00' new_state)) ++ [NFAState.Match])
  | RegexNode.StartLine, current_state, states =>
    let new_state := states.length
    (new_state,
     (states.set current_state (NFAState.Transition '\x00' new_state)) ++ [NFAState.Match])
  | RegexNode.EndLine, current_state, states =>
    let new_state := states.length
    (new_state,
     (states.set current_state (NFAState.Transition '\x00' new_state)) ++ [NFAState.Match])
  | RegexNode.StartInput, current_state, states =>
    let new_state := states.length
    (new_state,
     (states.set current_state (NFAState.Transition '\x00' new_state)) ++ [NFAState.Match])
  | RegexNode.EndInput, current_state, states =>
    let new_state := states.length
    (new_state,
     (states.set current_state (NFAState.Transition '\x00' new_state)) ++ [NFAState.Match])
  | RegexNode.WordBoundary, current_state, states =>
    let new_state := states.length
    (new_state,
     (states.set current_state (NFAState.Transition '\x00' new_state)) ++ [NFAState.Match])

/-- The `for node in nodes` loop of the `Concat` arm. -/
def NFA.build_list : List RegexNode → Nat → List NFAState → Nat × List NFAState
  | [], current, states => (current, states)
  | node :: rest, current, states =>
    let r := NFA.build_from_node node current states
    NFA.build_list rest r.1 r.2

/-- The `for node in nodes` loop of the `Alternation` arm; `acc` carries the
`accept_state` option.  At the end the Rust code returns `accept_state`
if set, else `start_state`. -/
def NFA.build_branches :
    List RegexNode → Nat → Option Nat → List NFAState → Nat × List NFAState
  | [], start_state, acc, states => (acc.getD start_state, states)
  | node :: rest, start_state, acc, states =>
    let r := NFA.build_from_node node start_state states
    match acc with
    | none => NFA.build_branches rest start_state (some r.1) r.2
    | some a => NFA.build_branches rest start_state (some a) (r.2.set r.1 NFAState.Match)

/-- The unrolling loops of the `Repeat` arm (`k` iterations of
`current = self.build_from_node(node, current)`). -/
def NFA.build_times : RegexNode → Nat → Nat → List NFAState → Nat × List NFAState
  | _, 0, current, states => (current, states)
  | node, k + 1, current, states =>
    let r := NFA.build_from_node node current states
    NFA.build_times node k r.1 r.2

end

/-- `NFA::from_regex`: note that the exit index returned by
`build_from_node` is discarded and `accept` keeps the value 0 set by
`NFA::new`. -/
def NFA.from_regex (node : RegexNode) : NFA :=
  ⟨(NFA.build_from_node node 0 NFA.new.states).2, NFA.new.start, NFA.new.accept⟩

/-- `NFA::transition`.  The Rust code indexes `self.states[state]`; an
out-of-range index (which would panic in Rust, and never arises for the
indices the matcher reaches) is modelled as having no successors. -/
def NFA.transition (nfa : NFA) (state : Nat) (ch : Char) : Option (List Nat) :=
  match nfa.states.get? state with
  | some (NFAState.Transition expected next) =>
    if expected = '\x00' ∨ expected = ch then some [next] else none
  | some (NFAState.EpsilonTransition next) => some [next]
  | _ => none

/-- The inner `for &state in &current_states` loop of `NFA::matches`,
building `next_states`. -/
def NFA.step_states (nfa : NFA) (current_states : List Nat) (ch : Char) : List Nat :=
  current_states.foldl
    (fun acc state =>
      match nfa.transition state ch with
      | some new_states => acc ++ new_states
      | none => acc)
    []

/-- The `for ch in input.chars()` loop of `NFA::matches`. -/
def NFA.matches_aux (nfa : NFA) : List Char → List Nat → Bool
  | [], current_states => current_states.contains nfa.accept
  | ch :: rest, current_states =>
    let next_states := nfa.step_states current_states ch
    if next_states.isEmpty then false else nfa.matches_aux rest next_states

/-- `NFA::matches`. -/
def NFA.matches (nfa : NFA) (input : List Char) : Bool :=
  nfa.matches_aux input [nfa.start]

namespace Parser

/-- Parser state: `current_token` plus the lexer's remaining input. -/
structure PState where
  current_token : Token
  rest : List Char
deriving DecidableEq, Repr

/-- Advance: `self.current_token = self.lexer.next_token()`. -/
def advance (st : PState) : PState :=
  ⟨(Lexer.next_token st.rest).1, (Lexer.next_token st.rest).2⟩

/-- `Parser::consume_token`. -/
def consume_token (expected : Token) (st : PState) : Except String PState :=
  if st.current_token = expected then Except.ok (advance st)
  else
    Except.error
      ("Expected " ++ token_str expected ++ ", got " ++ token_str st.current_token)

/-- `Parser::escape_to_node`. -/
def escape_to_node (ch : Char) : RegexNode :=
  if ch = 'd' then RegexNode.Digit
  else if ch = 'w' then RegexNode.WordChar
  else if ch = 's' then RegexNode.Whitespace
  else if ch = 'A' then RegexNode.StartInput
  else if ch = 'z' then RegexNode.EndInput
  else if ch = 'b' then RegexNode.WordBoundary
  else RegexNode.Char ch

/-- `Parser::parse_range` (no recursion, so no fuel needed).  Note the Rust
code consumes `Token::CloseBracket` (the token for the character `]`) at the
end, on every path. -/
def parse_range (st : PState) : Except String (RepeatRange × PState) :=
  match st.current_token with
  | Token.Char ch =>
    if ch.isDigit then
      match consume_token (Token.Char ch) st with
      | Except.error e => Except.error e
      | Except.ok st =>
        let min := ch.toNat - 48
        if st.current_token = Token.Char ',' then
          match consume_token (Token.Char ',') st with
          | Except.error e => Except.error e
          | Except.ok st =>
            match st.current_token with
            | Token.Char c2 =>
              if c2.isDigit then
                match consume_token (Token.Char c2) st with
                | Except.error e => Except.error e
                | Except.ok st =>
                  match consume_token Token.CloseBracket st with
                  | Except.error e => Except.error e
                  | Except.ok st => Except.ok (⟨min, some (c2.toNat - 48)⟩, st)
              else
                match consume_token Token.CloseBracket st with
                | Except.error e => Except.error e
                | Except.ok st => Except.ok (⟨min, none⟩, st)
            | _ =>
              match consume_token Token.CloseBracket st with
              | Except.error e => Except.error e
              | Except.ok st => Except.ok (⟨min, none⟩, st)
        else
          match consume_token Token.CloseBracket st with
          | Except.error e => Except.error e
          | Except.ok st => Except.ok (⟨min, none⟩, st)
    else
      match consume_token Token.CloseBracket st with
      | Except.error e => Except.error e
      | Except.ok st => Except.ok (⟨0, none⟩, st)
  | _ =>
    match consume_token Token.CloseBracket st with
    | Except.error e => Except.error e
    | Except.ok st => Except.ok (⟨0, none⟩, st)

mutual

/-- `Parser::parse_alternation`, with a fuel parameter making the mutual
recursion structural (every call uses strictly smaller fuel; the top-level
entry point supplies more fuel than the recursion can consume). -/
def parse_alternation : Nat → PState → Except String (RegexNode × PState)
  | 0, _ => Except.error "fuel exhausted"
  | fuel + 1, st =>
    match parse_concat fuel st with
    | Except.error e => Except.error e
    | Except.ok (first, st) => alternation_loop fuel [first] st

/-- The `while self.current_token == Token::Alternation` loop. -/
def alternation_loop :
    Nat → List RegexNode → PState → Except String (RegexNode × PState)
  | 0, _, _ => Except.error "fuel exhausted"
  | fuel + 1, nodes, st =>
    if st.current_token = Token.Alternation then
      match consume_token Token.Alternation st with
      | Except.error e => Except.error e
      | Except.ok st =>
        match parse_concat fuel st with
        | Except.error e => Except.error e
        | Except.ok (n, st) => alternation_loop fuel (nodes ++ [n]) st
    else
      Except.ok
        (match nodes with
         | [single] => single
         | _ => RegexNode.Alternation nodes, st)

/-- `Parser::parse_concat`. -/
def parse_concat : Nat → PState → Except String (RegexNode × PState)
  | 0, _ => Except.error "fuel exhausted"
  | fuel + 1, st =>
    match parse_atom fuel st with
    | Except.error e => Except.error e
    | Except.ok (first, st) => concat_loop fuel [first] st

/-- The `while` loop of `parse_concat` (runs until `|`, `)` or EOF). -/
def concat_loop :
    Nat → List RegexNode → PState → Except String (RegexNode × PState)
  | 0, _, _ => Except.error "fuel exhausted"
  | fuel + 1, nodes, st =>
    if st.current_token ≠ Token.Alternation ∧
        st.current_token ≠ Token.CloseParen ∧
        st.current_token ≠ Token.EOF then
      match parse_atom fuel st with
      | Except.error e => Except.error e
      | Except.ok (n, st) => concat_loop fuel (nodes ++ [n]) st
    else
      Except.ok
        (match nodes with
         | [single] => single
         | _ => RegexNode.Concat nodes, st)

/-- `Parser::parse_atom` (primary plus optional quantifier). -/
def parse_atom : Nat → PState → Except String (RegexNode × PState)
  | 0, _ => Except.error "fuel exhausted"
  | fuel + 1, st =>
    match parse_primary fuel st with
    | Except.error e => Except.error e
    | Except.ok (node, st) =>
      match st.current_token with
      | Token.Star =>
        match consume_token Token.Star st with
        | Except.error e => Except.error e
        | Except.ok st => Except.ok (RegexNode.Star node, st)
      | Token.Plus =>
        match consume_token Token.Plus st with
        | Except.error e => Except.error e
        | Except.ok st => Except.ok (RegexNode.Plus node, st)
      | Token.Question =>
        match consume_token Token.Question st with
        | Except.error e => Except.error e
        | Except.ok st => Except.ok (RegexNode.Question node, st)
      | Token.Range =>
        match consume_token Token.Range st with
        | Except.error e => Except.error e
        | Except.ok st =>
          match parse_range st with
          | Except.error e => Except.error e
          | Except.ok (range, st) => Except.ok (RegexNode.Repeat node range, st)
      | _ => Except.ok (node, st)

/-- `Parser::parse_primary`. -/
def parse_primary : Nat → PState → Except String (RegexNode × PState)
  | 0, _ => Except.error "fuel exhausted"
  | fuel + 1, st =>
    match st.current_token with
    | Token.Char ch =>
      match consume_token (Token.Char ch) st with
      | Except.error e => Except.error e
      | Except.ok st => Except.ok (RegexNode.Char ch, st)
    | Token.Escape ch =>
      match consume_token (Token.Escape ch) st with
      | Except.error e => Except.error e
      | Except.ok st => Except.ok (escape_to_node ch, st)
    | Token.AnyChar =>
      match consume_token Token.AnyChar st with
      | Except.error e => Except.error e
      | Except.ok st => Except.ok (RegexNode.AnyChar, st)
    | Token.Digit =>
      match consume_token Token.Digit st with
      | Except.error e => Except.error e
      | Except.ok st => Except.ok (RegexNode.Digit, st)
    | Token.WordChar =>
      match consume_token Token.WordChar st with
      | Except.error e => Except.error e
      | Except.ok st => Except.ok (RegexNode.WordChar, st)
    | Token.Whitespace =>
      match consume_token Token.Whitespace st with
      | Except.error e => Except.error e
      | Except.ok st => Except.ok (RegexNode.Whitespace, st)
    | Token.OpenParen =>
      match consume_token Token.OpenParen st with
      | Except.error e => Except.error e
      | Except.ok st =>
        match parse_alternation fuel st with
        | Except.error e => Except.error e
        | Except.ok (node, st) =>
          match consume_token Token.CloseParen st with
          | Except.error e => Except.error e
          | Except.ok st => Except.ok (RegexNode.Group node, st)
    | Token.StartLine =>
      match consume_token Token.StartLine st with
      | Except.error e => Except.error e
      | Except.ok st => Except.ok (RegexNode.StartLine, st)
    | Token.EndLine =>
      match consume_token Token.EndLine st with
      | Except.error e => Except.error e
      | Except.ok st => Except.ok (RegexNode.EndLine, st)
    | Token.StartInput =>
      match consume_token Token.StartInput st with
      | Except.error e => Except.error e
      | Except.ok st => Except.ok (RegexNode.StartInput, st)
    | Token.EndInput =>
      match consume_token Token.EndInput st with
      | Except.error e => Except.error e
      | Except.ok st => Except.ok (RegexNode.EndInput, st)
    | Token.WordBoundary =>
      match consume_token Token.WordBoundary st with
      | Except.error e => Except.error e
      | Except.ok st => Except.ok (RegexNode.WordBoundary, st)
    | t => Except.error ("Unexpected token: " ++ token_str t)

end

/-- `Parser::new` followed by `Parser::parse` on a pattern string.  The fuel
grows linearly with the input and is generous: the recursion consumes at
most a constant amount of fuel per input token. -/
def parse (input : String) : Except String RegexNode :=
  let cs := input.toList
  let st := advance ⟨Token.EOF, cs⟩
  match parse_alternation (8 * cs.length + 32) st with
  | Except.error e => Except.error e
  | Except.ok (node, _) => Except.ok node

end Parser

/-! ### Invariants of the construction

`target_pos` says a state's stored successor index is at least 1.  Every
state the builder ever stores points at an index ≥ 1, because successor
indices are always `states.len()` at a moment when the vector is non-empty.
Since `accept` stays 0, the matcher can only succeed on the empty input. -/

/-- The successor index stored in a state (if any) is positive. -/
def NFAState.target_pos : NFAState → Prop
  | NFAState.Transition _ next => 1 ≤ next
  | NFAState.EpsilonTransition next => 1 ≤ next
  | _ => True

/-- All states in the list have positive successor indices. -/
def targets_pos (s : List NFAState) : Prop := ∀ st ∈ s, st.target_pos

/-- Relation between the states vector before and after a builder call:
the vector only grows, and positive-successor states stay that way. -/
def build_ok (s t : List NFAState) : Prop :=
  s.length ≤ t.length ∧ (1 ≤ s.length → targets_pos s → targets_pos t)

theorem build_ok_refl (s : List NFAState) : build_ok s s :=
  ⟨le_refl _, fun _ h => h⟩

theorem build_ok_trans {s t u : List NFAState} (h1 : build_ok s t)
    (h2 : build_ok t u) : build_ok s u :=
  ⟨le_trans h1.1 h2.1,
   fun hl ho => h2.2 (le_trans hl h1.1) (h1.2 hl ho)⟩

theorem targets_pos_append {s t : List NFAState} (h1 : targets_pos s)
    (h2 : targets_pos t) : targets_pos (s ++ t) := by
  intro st hst
  rcases List.mem_append.1 hst with h | h
  · exact h1 _ h
  · exact h2 _ h

theorem targets_pos_set {s : List NFAState} {x : NFAState} (h : targets_pos s)
    (hx : x.target_pos) (i : Nat) : targets_pos (s.set i x) := by
  intro st hst
  rcases List.mem_or_eq_of_mem_set hst with h2 | h2
  · exact h _ h2
  · rw [h2]; exact hx

theorem build_ok_of_append_start {s t : List NFAState}
    (h : build_ok (s ++ [NFAState.Start]) t) : build_ok s t := by
  refine ⟨le_trans (by simp) h.1, fun hl ho => ?_⟩
  refine h.2 (by simp) (targets_pos_append ho ?_)
  intro st hst
  simp only [List.mem_singleton] at hst
  rw [hst]; trivial

theorem build_ok_set {s t : List NFAState} {x : NFAState} (h : build_ok s t)
    (hx : 1 ≤ s.length → x.target_pos) (i : Nat) : build_ok s (t.set i x) :=
  ⟨le_trans h.1 (by simp), fun hl ho => targets_pos_set (h.2 hl ho) (hx hl) i⟩

theorem build_ok_leaf (ch : Char) (cur : Nat) (s : List NFAState) :
    build_ok s ((s.set cur (NFAState.Transition ch s.length)) ++ [NFAState.Match]) := by
  refine ⟨by simp, fun hl ho => ?_⟩
  refine targets_pos_append (targets_pos_set ho ?_ cur) ?_
  · exact hl
  · intro st hst
    simp only [List.mem_singleton] at hst
    rw [hst]; exact True.intro

/-- Every call of the builder only grows the states vector and preserves
the positive-successor invariant (joint statement for `build_from_node`
and its three loop helpers). -/
theorem build_from_node_ok :
    ∀ (node : RegexNode) (cur : Nat) (s : List NFAState),
      build_ok s (NFA.build_from_node node cur s).2 := by
  refine NFA.build_from_node.induct
    (fun node cur s => build_ok s (NFA.build_from_node node cur s).2)
    (fun node k cur s => build_ok s (NFA.build_times node k cur s).2)
    (fun nodes st acc s => build_ok s (NFA.build_branches nodes st acc s).2)
    (fun nodes cur s => build_ok s (NFA.build_list nodes cur s).2)
    ?_ ?_ ?_ ?_ ?_ ?_ ?_ ?_ ?_ ?_ ?_ ?_ ?_ ?_ ?_ ?_ ?_ ?_ ?_ ?_ ?_ ?_ ?_ ?_ ?_
  case _ => intro ch cur s; simp only [NFA.build_from_node]; exact build_ok_leaf ch cur s
  case _ => intro cur s; simp only [NFA.build_from_node]; exact build_ok_leaf _ cur s
  case _ => intro nodes cur s ih; simp only [NFA.build_from_node]; exact ih
  case _ =>
    intro nodes cur s start ih
    simp only [NFA.build_from_node]
    exact build_ok_of_append_start ih
  case _ =>
    intro node cur s start ih
    simp only [NFA.build_from_node]
    refine build_ok_set (build_ok_of_append_start ih) ?_ _
    intro hl; exact hl
  case _ =>
    intro node cur s start ih
    simp only [NFA.build_from_node]
    refine build_ok_set (build_ok_of_append_start ih) ?_ _
    intro hl; exact hl
  case _ =>
    intro node cur s start ih
    simp only [NFA.build_from_node]
    refine build_ok_set (build_ok_of_append_start ih) ?_ _
    intro hl; exact True.intro
  case _ =>
    intro node range cur s r mx hmx ih1 ih2
    simp only [NFA.build_from_node, hmx]
    exact build_ok_trans ih1 ih2
  case _ =>
    intro node range cur s hmx ih1
    simp only [NFA.build_from_node, hmx]
    exact ih1
  case _ => intro node cur s ih; simp only [NFA.build_from_node]; exact ih
  case _ => intro cur s; simp only [NFA.build_from_node]; exact build_ok_leaf _ cur s
  case _ => intro cur s; simp only [NFA.build_from_node]; exact build_ok_leaf _ cur s
  case _ => intro cur s; simp only [NFA.build_from_node]; exact build_ok_leaf _ cur s
  case _ => intro cur s; simp only [NFA.build_from_node]; exact build_ok_leaf _ cur s
  case _ => intro cur s; simp only [NFA.build_from_node]; exact build_ok_leaf _ cur s
  case _ => intro cur s; simp only [NFA.build_from_node]; exact build_ok_leaf _ cur s
  case _ => intro cur s; simp only [NFA.build_from_node]; exact build_ok_leaf _ cur s
  case _ => intro cur s; simp only [NFA.build_from_node]; exact build_ok_leaf _ cur s
  case _ => intro node cur s; simp only [NFA.build_times]; exact build_ok_refl s
  case _ =>
    intro node k cur s r ih1 ih2
    simp only [NFA.build_times]
    exact build_ok_trans ih1 ih2
  case _ => intro st acc s; simp only [NFA.build_branches]; exact build_ok_refl s
  case _ =>
    intro node rest st s r ih1 ih2
    simp only [NFA.build_branches]
    exact build_ok_trans ih1 ih2
  case _ =>
    intro node rest st s r a ih1 ih2
    simp only [NFA.build_branches]
    refine build_ok_trans (build_ok_set ih1 ?_ _) ih2
    intro hl; exact True.intro
  case _ => intro cur s; simp only [NFA.build_list]; exact build_ok_refl s
  case _ =>
    intro node rest cur s r ih1 ih2
    simp only [NFA.build_list]
    exact build_ok_trans ih1 ih2

/-- The automaton produced by `from_regex` satisfies the positive-successor
invariant: every stored successor index is at least 1. -/
theorem from_regex_targets_pos (node : RegexNode) :
    targets_pos (NFA.from_regex node).states := by
  have h := build_from_node_ok node 0 NFA.new.states
  simp only [NFA.from_regex]
  refine h.2 (by simp [NFA.new]) ?_
  intro st hst
  simp only [NFA.new, List.mem_singleton] at hst
  rw [hst]; exact True.intro

theorem transition_target_pos {nfa : NFA} (h : targets_pos nfa.states)
    {state : Nat} {ch : Char} {ns : List Nat}
    (ht : nfa.transition state ch = some ns) : ∀ x ∈ ns, 1 ≤ x := by
  unfold NFA.transition at ht
  split at ht
  · rename_i expected next hg
    split at ht
    · have hns : ns = [next] := by injection ht with h2; exact h2.symm
      rw [hns]
      intro x hx
      simp only [List.mem_singleton] at hx
      rw [hx]
      exact h _ (List.get?_mem hg)
    · exact absurd ht (by simp)
  · rename_i next hg
    have hns : ns = [next] := by injection ht with h2; exact h2.symm
    rw [hns]
    intro x hx
    simp only [List.mem_singleton] at hx
    rw [hx]
    exact h _ (List.get?_mem hg)
  · exact absurd ht (by simp)

theorem step_states_target_pos {nfa : NFA} (h : targets_pos nfa.states)
    (cur : List Nat) (ch : Char) : ∀ x ∈ nfa.step_states cur ch, 1 ≤ x := by
  unfold NFA.step_states
  suffices haux : ∀ (l : List Nat) (acc : List Nat), (∀ x ∈ acc, 1 ≤ x) →
      ∀ x ∈ l.foldl (fun acc state =>
        match nfa.transition state ch with
        | some new_states => acc ++ new_states
        | none => acc) acc, 1 ≤ x by
    exact haux cur [] (by simp)
  intro l
  induction l with
  | nil => intro acc hacc; simpa using hacc
  | cons hd tl ih =>
    intro acc hacc
    simp only [List.foldl_cons]
    apply ih
    cases htr : nfa.transition hd ch with
    | none => simpa [htr] using hacc
    | some ns =>
      simp only [htr]
      intro x hx
      rcases List.mem_append.1 hx with h1 | h1
      · exact hacc x h1
      · exact transition_target_pos h htr x h1

theorem matches_aux_pos_false {nfa : NFA} (hacc : nfa.accept = 0)
    (h : targets_pos nfa.states) :
    ∀ (l : List Char) (cur : List Nat), (∀ x ∈ cur, 1 ≤ x) →
      nfa.matches_aux l cur = false := by
  intro l
  induction l with
  | nil =>
    intro cur hcur
    simp only [NFA.matches_aux, hacc]
    have hnm : (0 : Nat) ∉ cur := by
      intro hm
      have := hcur 0 hm
      omega
    simpa using hnm
  | cons ch rest ih =>
    intro cur hcur
    simp only [NFA.matches_aux]
    cases he : (nfa.step_states cur ch).isEmpty with
    | true => simp [he]
    | false =>
      simp only [he, Bool.false_eq_true, if_false]
      exact ih _ (step_states_target_pos h cur ch)

/-- The central behavioural fact about the code as written: because
`from_regex` never updates `accept` (it stays 0, the start state), and every
transition built by `build_from_node` points at an index ≥ 1, the matcher
accepts an input iff the input is empty — for every pattern. -/
theorem matches_from_regex_eq_isEmpty (node : RegexNode) (input : List Char) :
    NFA.matches (NFA.from_regex node) input = input.isEmpty := by
  cases input with
  | nil => rfl
  | cons ch rest =>
    have hT : targets_pos (NFA.from_regex node).states := from_regex_targets_pos node
    show NFA.matches (NFA.from_regex node) (ch :: rest) = false
    unfold NFA.matches
    simp only [NFA.matches_aux]
    cases he : ((NFA.from_regex node).step_states [(NFA.from_regex node).start] ch).isEmpty with
    | true => simp [he]
    | false =>
      simp only [he, Bool.false_eq_true, if_false]
      exact matches_aux_pos_false rfl hT rest _ (step_states_target_pos hT _ ch)

/-! ### Claim theorems -/

/-- Claim C1 (refuted by the code): for the literal pattern "a", the parser
does return `Char 'a'`, but `matches` is false on the input "a" itself and
true on the empty input, so `matches(p, s)` is NOT `s == p`.  (`from_regex`
leaves `accept` at index 0, and after consuming a character the active set
can only hold indices ≥ 1.) -/
theorem C1_literal_whole_string_fails :
    Parser.parse "a" = Except.ok (RegexNode.Char 'a') ∧
    NFA.matches (NFA.from_regex (RegexNode.Char 'a')) "a".toList = false ∧
    NFA.matches (NFA.from_regex (RegexNode.Char 'a')) "".toList = true := by
  have h : NFA.from_regex (RegexNode.Char 'a') =
      ⟨[NFAState.Transition 'a' 1, NFAState.Match], 0, 0⟩ := by
    simp [NFA.from_regex, NFA.new, NFA.build_from_node]
  exact ⟨by rfl, by rw [h]; rfl, by rfl⟩

/-- Claim C2 (refuted by the code): for the NFA of pattern `Char 'a'`,
the empty input matches although the epsilon closure of the start set
(state 0 is a `Transition`, so the closure is the start set itself) contains
no `Match`-tagged state; and the input "a" leaves the active set `[1]`,
whose single state IS `Match`-tagged, yet `matches` returns false.  The
acceptance criterion in the code is membership of the `accept` field
(which construction leaves at 0), not the `Match` tag. -/
theorem C2_match_tag_not_acceptance :
    (NFA.from_regex (RegexNode.Char 'a')).states =
      [NFAState.Transition 'a' 1, NFAState.Match] ∧
    (NFA.from_regex (RegexNode.Char 'a')).start = 0 ∧
    (NFA.from_regex (RegexNode.Char 'a')).accept = 0 ∧
    NFA.matches (NFA.from_regex (RegexNode.Char 'a')) [] = true ∧
    NFA.step_states (NFA.from_regex (RegexNode.Char 'a')) [0] 'a' = [1] ∧
    NFA.matches (NFA.from_regex (RegexNode.Char 'a')) ['a'] = false := by
  have h : NFA.from_regex (RegexNode.Char 'a') =
      ⟨[NFAState.Transition 'a' 1, NFAState.Match], 0, 0⟩ := by
    simp [NFA.from_regex, NFA.new, NFA.build_from_node]
  rw [h]
  exact ⟨rfl, rfl, rfl, rfl, rfl, rfl⟩

/-- Claim C3 (refuted by the code): the pattern "cat|dog" parses to the
expected alternation AST, but the compiled NFA matches neither "cat" nor
"dog" (nor "catdog").  Each alternation branch rewrites the same shared
entry state, and acceptance tests the stale `accept` field anyway. -/
theorem C3_alternation_examples_fail :
    Parser.parse "cat|dog" = Except.ok (RegexNode.Alternation
      [RegexNode.Concat [RegexNode.Char 'c', RegexNode.Char 'a', RegexNode.Char 't'],
       RegexNode.Concat [RegexNode.Char 'd', RegexNode.Char 'o', RegexNode.Char 'g']]) ∧
    NFA.matches (NFA.from_regex (RegexNode.Alternation
      [RegexNode.Concat [RegexNode.Char 'c', RegexNode.Char 'a', RegexNode.Char 't'],
       RegexNode.Concat [RegexNode.Char 'd', RegexNode.Char 'o', RegexNode.Char 'g']]))
      "cat".toList = false ∧
    NFA.matches (NFA.from_regex (RegexNode.Alternation
      [RegexNode.Concat [RegexNode.Char 'c', RegexNode.Char 'a', RegexNode.Char 't'],
       RegexNode.Concat [RegexNode.Char 'd', RegexNode.Char 'o', RegexNode.Char 'g']]))
      "dog".toList = false ∧
    NFA.matches (NFA.from_regex (RegexNode.Alternation
      [RegexNode.Concat [RegexNode.Char 'c', RegexNode.Char 'a', RegexNode.Char 't'],
       RegexNode.Concat [RegexNode.Char 'd', RegexNode.Char 'o', RegexNode.Char 'g']]))
      "catdog".toList = false := by
  have h : NFA.from_regex (RegexNode.Alternation
      [RegexNode.Concat [RegexNode.Char 'c', RegexNode.Char 'a', RegexNode.Char 't'],
       RegexNode.Concat [RegexNode.Char 'd', RegexNode.Char 'o', RegexNode.Char 'g']]) =
      ⟨[NFAState.Start, NFAState.Transition 'd' 5, NFAState.Transition 'a' 3,
        NFAState.Transition 't' 4, NFAState.Match, NFAState.Transition 'o' 6,
        NFAState.Transition 'g' 7, NFAState.Match], 0, 0⟩ := by
    simp [NFA.from_regex, NFA.new, NFA.build_from_node, NFA.build_list, NFA.build_branches]
  exact ⟨by rfl, by rw [h]; rfl, by rw [h]; rfl, by rw [h]; rfl⟩

/-- Claim C4 (refuted by the code): the pattern a\x7b1,3\x7d is REJECTED by
the parser, because `parse_range` ends by consuming `Token::CloseBracket`
(the token produced by the character `]`), while the closing brace lexes to
a plain `Char` token; the variant a\x7b1,3] is the spelling the parser
actually accepts. -/
theorem C4_brace_quantifier_rejected :
    Parser.parse "a\x7b1,3\x7d" =
      Except.error "Expected CloseBracket, got Char(\x7d)" ∧
    Parser.parse "a\x7b1,3]" =
      Except.ok (RegexNode.Repeat (RegexNode.Char 'a') ⟨1, some 3⟩) :=
  ⟨by rfl, by rfl⟩

/-- Claim C5 (refuted by the code): compiling `Repeat` of `Char 'a'` with
min 1 and max `some 3` does unroll three copies, but they are chained as
three mandatory transitions (states 0→1→2→3 below, no optional bypass), and
the matcher accepts only the empty string anyway: "a", "aa" and "aaa" are
all rejected. -/
theorem C5_repeat_range_fails :
    NFA.from_regex (RegexNode.Repeat (RegexNode.Char 'a') ⟨1, some 3⟩) =
      ⟨[NFAState.Transition 'a' 1, NFAState.Transition 'a' 2,
        NFAState.Transition 'a' 3, NFAState.Match], 0, 0⟩ ∧
    NFA.matches (NFA.from_regex (RegexNode.Repeat (RegexNode.Char 'a') ⟨1, some 3⟩))
      "a".toList = false ∧
    NFA.matches (NFA.from_regex (RegexNode.Repeat (RegexNode.Char 'a') ⟨1, some 3⟩))
      "aa".toList = false ∧
    NFA.matches (NFA.from_regex (RegexNode.Repeat (RegexNode.Char 'a') ⟨1, some 3⟩))
      "aaa".toList = false := by
  have h : NFA.from_regex (RegexNode.Repeat (RegexNode.Char 'a') ⟨1, some 3⟩) =
      ⟨[NFAState.Transition 'a' 1, NFAState.Transition 'a' 2,
        NFAState.Transition 'a' 3, NFAState.Match], 0, 0⟩ := by
    simp [NFA.from_regex, NFA.new, NFA.build_from_node, NFA.build_times]
  exact ⟨h, by rw [h]; rfl, by rw [h]; rfl, by rw [h]; rfl⟩

/-- Claim C6 (refuted in part by the code): for the pattern a*, the empty
string and "b" behave as claimed, but "aaa" is rejected (the claim says it
is accepted): the Star fragment starts at state index 1, while the matcher
starts at state 0, which stays a dead `Start` placeholder. -/
theorem C6_star_repetition_fails :
    NFA.matches (NFA.from_regex (RegexNode.Star (RegexNode.Char 'a')))
      "".toList = true ∧
    NFA.matches (NFA.from_regex (RegexNode.Star (RegexNode.Char 'a')))
      "aaa".toList = false ∧
    NFA.matches (NFA.from_regex (RegexNode.Star (RegexNode.Char 'a')))
      "b".toList = false := by
  have h : NFA.from_regex (RegexNode.Star (RegexNode.Char 'a')) =
      ⟨[NFAState.Start, NFAState.Transition 'a' 2, NFAState.EpsilonTransition 1], 0, 0⟩ := by
    simp [NFA.from_regex, NFA.new, NFA.build_from_node]
  exact ⟨by rfl, by rw [h]; rfl, by rw [h]; rfl⟩

/-- Claim C7 (refuted by the code): for the pattern a+, the empty string is
ACCEPTED (the claim says rejected) and "a", "aa" are rejected (the claim
says accepted). -/
theorem C7_plus_fails :
    NFA.matches (NFA.from_regex (RegexNode.Plus (RegexNode.Char 'a')))
      "".toList = true ∧
    NFA.matches (NFA.from_regex (RegexNode.Plus (RegexNode.Char 'a')))
      "a".toList = false ∧
    NFA.matches (NFA.from_regex (RegexNode.Plus (RegexNode.Char 'a')))
      "aa".toList = false := by
  have h : NFA.from_regex (RegexNode.Plus (RegexNode.Char 'a')) =
      ⟨[NFAState.Start, NFAState.Transition 'a' 2, NFAState.EpsilonTransition 1], 0, 0⟩ := by
    simp [NFA.from_regex, NFA.new, NFA.build_from_node]
  exact ⟨by rfl, by rw [h]; rfl, by rw [h]; rfl⟩

/-- Claim C8 (confirmed): escape handling in the lexer is total and
deterministic.  A trailing backslash yields a literal backslash token;
after a backslash, d, w, s, A, z, b map to their class and anchor tokens
and every other character maps to `Escape` of that character.  (Totality:
`next_token` is a total Lean function, so no input yields a lexical
error.) -/
theorem C8_escape_lexing :
    Lexer.next_token ['\\'] = (Token.Char '\\', []) ∧
    ∀ (c : Char) (cs : List Char),
      Lexer.next_token ('\\' :: c :: cs) =
        (if c = 'd' then Token.Digit
         else if c = 'w' then Token.WordChar
         else if c = 's' then Token.Whitespace
         else if c = 'A' then Token.StartInput
         else if c = 'z' then Token.EndInput
         else if c = 'b' then Token.WordBoundary
         else Token.Escape c, cs) :=
  ⟨rfl, fun _ _ => rfl⟩

/-- Claim C9 (confirmed): during construction the states vector only grows:
every recursive `build_from_node` call returns a vector at least as long as
the one it received (existing entries are only ever rewritten in place via
`set`, and new states are appended at the end), so previously assigned
indices stay valid. -/
theorem C9_states_only_grow :
    ∀ (node : RegexNode) (cur : Nat) (s : List NFAState),
      s.length ≤ (NFA.build_from_node node cur s).2.length :=
  fun node cur s => (build_from_node_ok node cur s).1

/-- Claim C10 (confirmed): the Star and Plus arms of `build_from_node` are
textually identical, so `from_regex` yields structurally equal NFAs for
`Plus n` and `Star n`, and `matches` agrees on every input. -/
theorem C10_plus_star_identical :
    ∀ (n : RegexNode) (input : List Char),
      NFA.from_regex (RegexNode.Plus n) = NFA.from_regex (RegexNode.Star n) ∧
      NFA.matches (NFA.from_regex (RegexNode.Plus n)) input =
        NFA.matches (NFA.from_regex (RegexNode.Star n)) input := by
  have hb : ∀ (m : RegexNode) (cur : Nat) (s : List NFAState),
      NFA.build_from_node (RegexNode.Plus m) cur s =
        NFA.build_from_node (RegexNode.Star m) cur s := by
    intro m cur s
    simp [NFA.build_from_node]
  intro n input
  have he : NFA.from_regex (RegexNode.Plus n) = NFA.from_regex (RegexNode.Star n) := by
    simp only [NFA.from_regex, hb]
  exact ⟨he, by rw [he]⟩

end Simplegrep
